import Mathlib

/-!
Verification of the Xception network definition
(`light_cnns/Inception/Xception.py`).

The file embeds the repository's three modules — `SeparableConv2d`,
`Block` and `Xception` — as Lean structures whose constructors mirror
`__init__` and whose forward functions mirror `forward`, over a
rational-valued tensor model.  Framework primitives (`nn.Conv2d`,
`nn.BatchNorm2d`, `nn.ReLU`, `nn.MaxPool2d`, `F.avg_pool2d`, `view`,
`nn.Linear`, `F.dropout`) are modelled from their documented behaviour:
they are host-framework code, not part of the repository.

Besides the value-level semantics the file defines
* a shape-level semantics (`runStagesE`) in which each framework
  primitive checks the conditions under which the real framework raises,
* a channel-count semantics (`chanStages`) recording declared channel
  interfaces, and
* a buffer-aliasing semantics (`Block.forwardAlias`) recording which
  in-place operations touch the caller's input buffer.
-/

/-- Weight tensor of a 2-d convolution: indexed by output channel,
input channel within the group, and the two kernel coordinates. -/
abbrev W4 := Nat → Nat → Nat → Nat → ℚ

/-- Per-channel parameter vector (batch-norm scale/shift, linear bias). -/
abbrev W1 := Nat → ℚ

/-- Weight matrix of a linear layer. -/
abbrev W2 := Nat → Nat → ℚ

/-- A 4-d tensor over the rationals: batch, channel, height and width
sizes together with a total data function (reads outside the declared
extent are never used by the semantics below). -/
structure Tensor where
  n : Nat
  c : Nat
  h : Nat
  w : Nat
  data : Nat → Nat → Nat → Nat → ℚ

/-- A 2-d tensor (the result of `x.view(x.size(0), -1)` and of `nn.Linear`). -/
structure Tensor2 where
  n : Nat
  f : Nat
  data : Nat → Nat → ℚ

/-- Spatial output size of a 2-d convolution / pooling window:
`(size + 2*padding - dilation*(kernel-1) - 1) / stride + 1`,
as documented for `nn.Conv2d` and `nn.MaxPool2d`. -/
def convOutDim (size k s p d : Nat) : Nat :=
  (size + 2 * p - (d * (k - 1) + 1)) / s + 1

/-- Model of the framework primitive `nn.Conv2d` (all convolutions in the
repository are constructed with `bias=False`, so no bias field). -/
structure Conv2d where
  in_channels : Nat
  out_channels : Nat
  kernel_size : Nat
  stride : Nat
  padding : Nat
  dilation : Nat
  groups : Nat
  weight : W4

/-- Number of weight entries of a `nn.Conv2d`: the framework stores the
weight as a tensor of shape `(out_channels, in_channels/groups, k, k)`. -/
def Conv2d.weightNumel (c : Conv2d) : Nat :=
  c.out_channels * (c.in_channels / c.groups) * (c.kernel_size * c.kernel_size)

/-- Zero-padded read of a tensor at position `(i, j)` of the padded grid. -/
def padRead (t : Tensor) (p b ch i j : Nat) : ℚ :=
  if p ≤ i ∧ p ≤ j ∧ i < t.h + p ∧ j < t.w + p then t.data b ch (i - p) (j - p) else 0

/-- Value semantics of `nn.Conv2d.forward`: grouped 2-d cross-correlation
with stride, zero padding and dilation. -/
def conv2dApply (c : Conv2d) (x : Tensor) : Tensor :=
  let inPerGroup := c.in_channels / c.groups
  let outPerGroup := c.out_channels / c.groups
  { n := x.n
    c := c.out_channels
    h := convOutDim x.h c.kernel_size c.stride c.padding c.dilation
    w := convOutDim x.w c.kernel_size c.stride c.padding c.dilation
    data := fun b co i j =>
      ∑ ci ∈ Finset.range inPerGroup, ∑ ki ∈ Finset.range c.kernel_size,
        ∑ kj ∈ Finset.range c.kernel_size,
          c.weight co ci ki kj *
            padRead x c.padding b (co / outPerGroup * inPerGroup + ci)
              (i * c.stride + ki * c.dilation) (j * c.stride + kj * c.dilation) }

/-- Model of the framework primitive `nn.BatchNorm2d` with `num_features`
channels.  In eval mode batch norm is the per-channel affine map
`y = weight * (x - mean) / sqrt(var + eps) + bias`; `scale` and `shift`
stand for the combined per-channel coefficients
`weight / sqrt(var + eps)` and `bias - mean * weight / sqrt(var + eps)`
maintained by the framework. -/
structure BatchNorm2d where
  num_features : Nat
  scale : W1
  shift : W1

/-- Value semantics of batch normalization: per-channel affine map. -/
def bnApply (p : BatchNorm2d) (x : Tensor) : Tensor :=
  { x with data := fun b ch i j => p.scale ch * x.data b ch i j + p.shift ch }

/-- Value semantics of `nn.ReLU`: pointwise maximum with zero. -/
def reluApply (x : Tensor) : Tensor :=
  { x with data := fun b ch i j => max (x.data b ch i j) 0 }

/-- In-bounds values of the `k × k` pooling window anchored at output
position `(i, j)` (cells falling into the padding are dropped, matching
the framework's `-inf` padding for max pooling). -/
def windowVals (x : Tensor) (k s p b ch i j : Nat) : List ℚ :=
  (List.range k).flatMap fun ki =>
    (List.range k).filterMap fun kj =>
      let r := i * s + ki
      let q := j * s + kj
      if p ≤ r ∧ p ≤ q ∧ r < x.h + p ∧ q < x.w + p then
        some (x.data b ch (r - p) (q - p))
      else none

/-- Maximum of a list of rationals (the lists it is applied to are
nonempty; the default only matters for empty lists). -/
def listMax (l : List ℚ) : ℚ := l.foldr max (l.headD 0)

/-- Value semantics of `nn.MaxPool2d kernel stride padding`. -/
def maxPoolApply (k s p : Nat) (x : Tensor) : Tensor :=
  { n := x.n
    c := x.c
    h := convOutDim x.h k s p 1
    w := convOutDim x.w k s p 1
    data := fun b ch i j => listMax (windowVals x k s p b ch i j) }

/-- Value semantics of the element-wise addition `x += skip` (the shape
conditions under which the framework accepts it live in the shape
semantics below). -/
def addT (x y : Tensor) : Tensor :=
  { x with data := fun b ch i j => x.data b ch i j + y.data b ch i j }

/-- Value semantics of `F.avg_pool2d` with square kernel `k` (stride
defaults to the kernel size, no padding). -/
def avgPoolApply (k : Nat) (x : Tensor) : Tensor :=
  { n := x.n
    c := x.c
    h := (x.h - k) / k + 1
    w := (x.w - k) / k + 1
    data := fun b ch i j =>
      (∑ ki ∈ Finset.range k, ∑ kj ∈ Finset.range k,
        x.data b ch (i * k + ki) (j * k + kj)) / ((k : ℚ) * k) }

/-- Value semantics of `x.view(x.size(0), -1)`: flatten all but the batch
dimension (row-major). -/
def viewFlat (x : Tensor) : Tensor2 :=
  { n := x.n
    f := x.c * x.h * x.w
    data := fun b r => x.data b (r / (x.h * x.w)) (r % (x.h * x.w) / x.w) (r % x.w) }

/-- Model of the framework primitive `nn.Linear` (with bias, the default). -/
structure Linear where
  in_features : Nat
  out_features : Nat
  weight : W2
  bias : W1

/-- Value semantics of `nn.Linear`: affine map on the feature dimension. -/
def linApply (l : Linear) (x : Tensor2) : Tensor2 :=
  { n := x.n
    f := l.out_features
    data := fun b o =>
      (∑ i ∈ Finset.range l.in_features, l.weight o i * x.data b i) + l.bias o }

/-- Model of `F.dropout` as applied at inference: the identity map; dropout
has no learned parameters and never changes the shape. -/
def dropoutApply (x : Tensor) : Tensor := x

/-- Embedding of the repository class `SeparableConv2d`: a depthwise
convolution `conv1` followed by a pointwise convolution `pointwise`. -/
structure SeparableConv2d where
  conv1 : Conv2d
  pointwise : Conv2d

/-- Translation of `SeparableConv2d.__init__`:
`conv1 = nn.Conv2d(in, in, k, stride, padding, dilation, groups=in, bias=False)`,
`pointwise = nn.Conv2d(in, out, 1, 1, 0, 1, 1, bias=False)`.
The framework-initialized weight tensors are passed in as `w1`, `wp`. -/
def SeparableConv2d.init (in_channels out_channels kernel_size stride padding dilation : Nat)
    (w1 wp : W4) : SeparableConv2d :=
  { conv1 := ⟨in_channels, in_channels, kernel_size, stride, padding, dilation, in_channels, w1⟩
    pointwise := ⟨in_channels, out_channels, 1, 1, 0, 1, 1, wp⟩ }

/-- Translation of `SeparableConv2d.forward`: `conv1` then `pointwise`. -/
def SeparableConv2d.forward (m : SeparableConv2d) (x : Tensor) : Tensor :=
  conv2dApply m.pointwise (conv2dApply m.conv1 x)

/-- Total number of weight entries of a `SeparableConv2d`. -/
def SeparableConv2d.weightNumel (m : SeparableConv2d) : Nat :=
  m.conv1.weightNumel + m.pointwise.weightNumel

/-- One element of the `rep` sequence built by `Block.__init__`. -/
inductive RepLayer where
  | relu (inplace : Bool)
  | sep (m : SeparableConv2d)
  | bn (p : BatchNorm2d)
  | maxpool (kernel stride padding : Nat)

/-- Value semantics of one `rep` element. -/
def repLayerApply : RepLayer → Tensor → Tensor
  | .relu _, x => reluApply x
  | .sep m, x => m.forward x
  | .bn p, x => bnApply p x
  | .maxpool k s p, x => maxPoolApply k s p x

/-- Value semantics of `nn.Sequential(*rep)`: apply the layers in order. -/
def runRep : List RepLayer → Tensor → Tensor
  | [], x => x
  | l :: rest, x => runRep rest (repLayerApply l x)

/-- Framework-initialized parameters for one `rep` iteration of a `Block`:
the two convolution weights of its `SeparableConv2d` and the batch-norm
coefficients. -/
structure RepP where
  dw : W4
  pw : W4
  bnScale : W1
  bnShift : W1

/-- Embedding of the repository class `Block`: the optional projection
`skip`/`skipbn` and the `rep` sequence. -/
structure Block where
  skip : Option (Conv2d × BatchNorm2d)
  rep : List RepLayer

/-- The `rep` list built by the loop of `Block.__init__`: per iteration
`i` in `range(reps)` it appends `ReLU(inplace=True)`,
`SeparableConv2d(inc, outc, 3, stride=1, padding=1)` and
`BatchNorm2d(outc)`, where `inc`/`outc` follow the `grow_first` cases of
the source. -/
def Block.buildRep (in_channels out_channels reps : Nat) (grow_first : Bool)
    (rp : Nat → RepP) : List RepLayer :=
  (List.range reps).flatMap fun i =>
    let inc := if grow_first then (if i = 0 then in_channels else out_channels)
               else in_channels
    let outc := if grow_first then out_channels
                else (if i < reps - 1 then in_channels else out_channels)
    [RepLayer.relu true,
     RepLayer.sep (SeparableConv2d.init inc outc 3 1 1 1 (rp i).dw (rp i).pw),
     RepLayer.bn ⟨outc, (rp i).bnScale, (rp i).bnShift⟩]

/-- Translation of `Block.__init__`.  `skip` is a strided 1x1 convolution
plus batch norm exactly when `out_channels != in_channels or strides != 1`.
The `rep` loop is `Block.buildRep`; then `rep = rep[1:]` when
`not start_with_relu`, otherwise `rep[0] = nn.ReLU(inplace=False)` —
which raises `IndexError` on an empty list, the `none` case here;
finally `MaxPool2d(3, strides, 1)` is appended when `strides != 1`. -/
def Block.init (in_channels out_channels reps strides : Nat)
    (start_with_relu grow_first : Bool)
    (skipW : W4) (skipScale skipShift : W1) (rp : Nat → RepP) : Option Block :=
  let skip : Option (Conv2d × BatchNorm2d) :=
    if out_channels ≠ in_channels ∨ strides ≠ 1 then
      some (⟨in_channels, out_channels, 1, strides, 0, 1, 1, skipW⟩,
            ⟨out_channels, skipScale, skipShift⟩)
    else none
  let rep0 : List RepLayer :=
    Block.buildRep in_channels out_channels reps grow_first rp
  let rep1 : Option (List RepLayer) :=
    if start_with_relu then
      match rep0 with
      | [] => none
      | _ :: t => some (RepLayer.relu false :: t)
    else some (List.drop 1 rep0)
  match rep1 with
  | none => none
  | some r =>
      some { skip := skip
             rep := if strides ≠ 1 then r ++ [RepLayer.maxpool 3 strides 1] else r }

/-- Translation of `Block.forward`: `x = rep(inp)`; the skip branch is
`skipbn(skip(inp))` when the projection exists and `inp` itself
otherwise; finally `x += skip`. -/
def Block.forward (b : Block) (inp : Tensor) : Tensor :=
  let x := runRep b.rep inp
  let s := match b.skip with
    | some sp => bnApply sp.2 (conv2dApply sp.1 inp)
    | none => inp
  addT x s

/-- Framework-initialized parameters for one `Block` of the network. -/
structure BlockP where
  skipW : W4
  skipScale : W1
  skipShift : W1
  rp : Nat → RepP

/-- Framework-initialized parameters for the whole `Xception` network
(the weight-init loop at the end of `Xception.__init__` runs before any
forward call, so these stand for the post-construction values). -/
structure Params where
  conv1W : W4
  bn1Scale : W1
  bn1Shift : W1
  conv2W : W4
  bn2Scale : W1
  bn2Shift : W1
  bp : Nat → BlockP
  conv3P : RepP
  conv4P : RepP
  fcW : W2
  fcB : W1

/-- Embedding of the repository class `Xception`.  The `nn.ReLU` modules
`act1..act4` hold no state and are applied directly by the forward
functions below. -/
structure Xception where
  drop_rate : ℚ
  num_classes : Nat
  num_features : Nat
  conv1 : Conv2d
  bn1 : BatchNorm2d
  conv2 : Conv2d
  bn2 : BatchNorm2d
  block1 : Block
  block2 : Block
  block3 : Block
  block4 : Block
  block5 : Block
  block6 : Block
  block7 : Block
  block8 : Block
  block9 : Block
  block10 : Block
  block11 : Block
  block12 : Block
  conv3 : SeparableConv2d
  bn3 : BatchNorm2d
  conv4 : SeparableConv2d
  bn4 : BatchNorm2d
  fc : Linear
  training : Bool

/-- Translation of `Xception.__init__` (layer arguments exactly as in the
source; `num_features = 2048`).  Modules are constructed in training
mode.  The result is an `Option` because `Block.init` can fail; for the
twelve blocks built here it never does. -/
def Xception.init (num_classes in_chans : Nat) (drop_rate : ℚ) (P : Params) :
    Option Xception := do
  let b1 ← Block.init 64 128 2 2 false true (P.bp 1).skipW (P.bp 1).skipScale
      (P.bp 1).skipShift (P.bp 1).rp
  let b2 ← Block.init 128 256 2 2 true true (P.bp 2).skipW (P.bp 2).skipScale
      (P.bp 2).skipShift (P.bp 2).rp
  let b3 ← Block.init 256 728 2 2 true true (P.bp 3).skipW (P.bp 3).skipScale
      (P.bp 3).skipShift (P.bp 3).rp
  let b4 ← Block.init 728 728 3 1 true true (P.bp 4).skipW (P.bp 4).skipScale
      (P.bp 4).skipShift (P.bp 4).rp
  let b5 ← Block.init 728 728 3 1 true true (P.bp 5).skipW (P.bp 5).skipScale
      (P.bp 5).skipShift (P.bp 5).rp
  let b6 ← Block.init 728 728 3 1 true true (P.bp 6).skipW (P.bp 6).skipScale
      (P.bp 6).skipShift (P.bp 6).rp
  let b7 ← Block.init 728 728 3 1 true true (P.bp 7).skipW (P.bp 7).skipScale
      (P.bp 7).skipShift (P.bp 7).rp
  let b8 ← Block.init 728 728 3 1 true true (P.bp 8).skipW (P.bp 8).skipScale
      (P.bp 8).skipShift (P.bp 8).rp
  let b9 ← Block.init 728 728 3 1 true true (P.bp 9).skipW (P.bp 9).skipScale
      (P.bp 9).skipShift (P.bp 9).rp
  let b10 ← Block.init 728 728 3 1 true true (P.bp 10).skipW (P.bp 10).skipScale
      (P.bp 10).skipShift (P.bp 10).rp
  let b11 ← Block.init 728 728 3 1 true true (P.bp 11).skipW (P.bp 11).skipScale
      (P.bp 11).skipShift (P.bp 11).rp
  let b12 ← Block.init 728 1024 2 2 true false (P.bp 12).skipW (P.bp 12).skipScale
      (P.bp 12).skipShift (P.bp 12).rp
  some
    { drop_rate := drop_rate
      num_classes := num_classes
      num_features := 2048
      conv1 := ⟨in_chans, 32, 3, 2, 0, 1, 1, P.conv1W⟩
      bn1 := ⟨32, P.bn1Scale, P.bn1Shift⟩
      conv2 := ⟨32, 64, 3, 1, 0, 1, 1, P.conv2W⟩
      bn2 := ⟨64, P.bn2Scale, P.bn2Shift⟩
      block1 := b1
      block2 := b2
      block3 := b3
      block4 := b4
      block5 := b5
      block6 := b6
      block7 := b7
      block8 := b8
      block9 := b9
      block10 := b10
      block11 := b11
      block12 := b12
      conv3 := SeparableConv2d.init 1024 1536 3 1 1 1 P.conv3P.dw P.conv3P.pw
      bn3 := ⟨1536, P.conv3P.bnScale, P.conv3P.bnShift⟩
      conv4 := SeparableConv2d.init 1536 2048 3 1 1 1 P.conv4P.dw P.conv4P.pw
      bn4 := ⟨2048, P.conv4P.bnScale, P.conv4P.bnShift⟩
      fc := ⟨2048, num_classes, P.fcW, P.fcB⟩
      training := true }

/-- `Xception.init` always succeeds: each of the twelve `Block.init`
calls has `reps ≥ 1`, so the `IndexError` case is never reached. -/
def Xception.make (num_classes in_chans : Nat) (drop_rate : ℚ) (P : Params) :
    Xception :=
  (Xception.init num_classes in_chans drop_rate P).get rfl

/-- Translation of `Xception.forward_features`: the stem, the twelve
blocks, and the head, in source order. -/
def Xception.forwardFeatures (m : Xception) (x0 : Tensor) : Tensor :=
  let x := conv2dApply m.conv1 x0
  let x := bnApply m.bn1 x
  let x := reluApply x
  let x := conv2dApply m.conv2 x
  let x := bnApply m.bn2 x
  let x := reluApply x
  let x := m.block1.forward x
  let x := m.block2.forward x
  let x := m.block3.forward x
  let x := m.block4.forward x
  let x := m.block5.forward x
  let x := m.block6.forward x
  let x := m.block7.forward x
  let x := m.block8.forward x
  let x := m.block9.forward x
  let x := m.block10.forward x
  let x := m.block11.forward x
  let x := m.block12.forward x
  let x := m.conv3.forward x
  let x := bnApply m.bn3 x
  let x := reluApply x
  let x := m.conv4.forward x
  let x := bnApply m.bn4 x
  reluApply x

/-- Translation of `Xception.forward`: features, then
`F.avg_pool2d(x, kernel_size=x.shape[2])`, optional dropout
(`if self.drop_rate > 0`), `view(x.size(0), -1)` and `fc`. -/
def Xception.forward (m : Xception) (x : Tensor) : Tensor2 :=
  let f := m.forwardFeatures x
  let p := avgPoolApply f.h f
  let d := if 0 < m.drop_rate then dropoutApply p else p
  linApply m.fc (viewFlat d)

/-- State-passing rendering of `nn.Conv2d.forward`: the layer reads its
parameters and hands the module record back (the source never assigns to
them). -/
def conv2dApplyS (c : Conv2d) (x : Tensor) : Tensor × Conv2d :=
  (conv2dApply c x,
   ⟨c.in_channels, c.out_channels, c.kernel_size, c.stride, c.padding,
    c.dilation, c.groups, c.weight⟩)

/-- State-passing rendering of batch normalization in the same style. -/
def bnApplyS (p : BatchNorm2d) (x : Tensor) : Tensor × BatchNorm2d :=
  (bnApply p x, ⟨p.num_features, p.scale, p.shift⟩)

/-- State-passing rendering of `nn.Linear`. -/
def linApplyS (l : Linear) (x : Tensor2) : Tensor2 × Linear :=
  (linApply l x, ⟨l.in_features, l.out_features, l.weight, l.bias⟩)

/-- State-passing rendering of `SeparableConv2d.forward`. -/
def SeparableConv2d.forwardS (m : SeparableConv2d) (x : Tensor) :
    Tensor × SeparableConv2d :=
  let r1 := conv2dApplyS m.conv1 x
  let r2 := conv2dApplyS m.pointwise r1.1
  (r2.1, ⟨r1.2, r2.2⟩)

/-- State-passing rendering of one `rep` element. -/
def repLayerApplyS : RepLayer → Tensor → Tensor × RepLayer
  | .relu ip, x => (reluApply x, .relu ip)
  | .sep m, x => let r := m.forwardS x; (r.1, .sep r.2)
  | .bn p, x => let r := bnApplyS p x; (r.1, .bn r.2)
  | .maxpool k s p, x => (maxPoolApply k s p x, .maxpool k s p)

/-- State-passing rendering of `nn.Sequential(*rep)`. -/
def runRepS : List RepLayer → Tensor → Tensor × List RepLayer
  | [], x => (x, [])
  | l :: rest, x =>
      let r := repLayerApplyS l x
      let rr := runRepS rest r.1
      (rr.1, r.2 :: rr.2)

/-- State-passing rendering of `Block.forward`. -/
def Block.forwardS (b : Block) (inp : Tensor) : Tensor × Block :=
  let xr := runRepS b.rep inp
  match b.skip with
  | some sp =>
      let sc := conv2dApplyS sp.1 inp
      let sb := bnApplyS sp.2 sc.1
      (addT xr.1 sb.1, ⟨some (sc.2, sb.2), xr.2⟩)
  | none => (addT xr.1 inp, ⟨none, xr.2⟩)

/-- State-passing rendering of `Xception.forward` (features, pooling,
optional dropout, flatten, classifier), threading every module through. -/
def Xception.forwardS (m : Xception) (x0 : Tensor) : Tensor2 × Xception :=
  let r1 := conv2dApplyS m.conv1 x0
  let rb1 := bnApplyS m.bn1 r1.1
  let x := reluApply rb1.1
  let r2 := conv2dApplyS m.conv2 x
  let rb2 := bnApplyS m.bn2 r2.1
  let x := reluApply rb2.1
  let k1 := m.block1.forwardS x
  let k2 := m.block2.forwardS k1.1
  let k3 := m.block3.forwardS k2.1
  let k4 := m.block4.forwardS k3.1
  let k5 := m.block5.forwardS k4.1
  let k6 := m.block6.forwardS k5.1
  let k7 := m.block7.forwardS k6.1
  let k8 := m.block8.forwardS k7.1
  let k9 := m.block9.forwardS k8.1
  let k10 := m.block10.forwardS k9.1
  let k11 := m.block11.forwardS k10.1
  let k12 := m.block12.forwardS k11.1
  let r3 := m.conv3.forwardS k12.1
  let rb3 := bnApplyS m.bn3 r3.1
  let x := reluApply rb3.1
  let r4 := m.conv4.forwardS x
  let rb4 := bnApplyS m.bn4 r4.1
  let f := reluApply rb4.1
  let p := avgPoolApply f.h f
  let d := if 0 < m.drop_rate then dropoutApply p else p
  let rf := linApplyS m.fc (viewFlat d)
  (rf.1,
   { drop_rate := m.drop_rate
     num_classes := m.num_classes
     num_features := m.num_features
     conv1 := r1.2
     bn1 := rb1.2
     conv2 := r2.2
     bn2 := rb2.2
     block1 := k1.2
     block2 := k2.2
     block3 := k3.2
     block4 := k4.2
     block5 := k5.2
     block6 := k6.2
     block7 := k7.2
     block8 := k8.2
     block9 := k9.2
     block10 := k10.2
     block11 := k11.2
     block12 := k12.2
     conv3 := r3.2
     bn3 := rb3.2
     conv4 := r4.2
     bn4 := rb4.2
     fc := rf.2
     training := m.training })

/-- Buffer-tracking state for `Block.forward`: the current activation
value, the current contents of the caller's input buffer, and whether the
current activation still lives in that buffer. -/
structure AState where
  cur : Tensor
  inpBuf : Tensor
  aliased : Bool

/-- Aliasing semantics of one `rep` element.  `nn.ReLU(inplace=True)`
writes its result into its argument's buffer; every other layer here
(convolution, batch norm, non-in-place ReLU, max pooling) allocates a
fresh output tensor. -/
def repLayerAlias : RepLayer → AState → AState
  | .relu ip, st =>
      let y := reluApply st.cur
      if ip then ⟨y, if st.aliased then y else st.inpBuf, st.aliased⟩
      else ⟨y, st.inpBuf, false⟩
  | .sep m, st => ⟨m.forward st.cur, st.inpBuf, false⟩
  | .bn p, st => ⟨bnApply p st.cur, st.inpBuf, false⟩
  | .maxpool k s p, st => ⟨maxPoolApply k s p st.cur, st.inpBuf, false⟩

/-- Aliasing semantics of `nn.Sequential(*rep)`. -/
def runRepAlias : List RepLayer → AState → AState
  | [], st => st
  | l :: rest, st => runRepAlias rest (repLayerAlias l st)

/-- Aliasing semantics of `Block.forward`: returns the function result
together with the final contents of the caller's input buffer.  `rep`
runs first; the skip branch then reads the input buffer; `x += skip`
writes into the buffer holding `x`. -/
def Block.forwardAlias (b : Block) (inp : Tensor) : Tensor × Tensor :=
  let st := runRepAlias b.rep ⟨inp, inp, true⟩
  let sk := match b.skip with
    | some sp => bnApply sp.2 (conv2dApply sp.1 st.inpBuf)
    | none => st.inpBuf
  let y := addT st.cur sk
  (y, if st.aliased then y else st.inpBuf)

/-- Causes for which the host framework raises during a forward call. -/
inductive Err where
  | rank
  | channel
  | kernelTooLarge
  | features
  | addMismatch
  deriving DecidableEq

/-- A tensor shape: the list of dimension sizes. -/
abbrev Shape := List Nat

/-- Shape semantics of `nn.Conv2d`: requires a 4-d input whose channel
count equals `in_channels` and a padded extent at least the effective
kernel extent, as the framework does. -/
def convShape (c : Conv2d) : Shape → Except Err Shape
  | [n, ch, h, w] =>
      if ch ≠ c.in_channels then .error .channel
      else if h + 2 * c.padding < c.dilation * (c.kernel_size - 1) + 1 ∨
              w + 2 * c.padding < c.dilation * (c.kernel_size - 1) + 1 then
        .error .kernelTooLarge
      else
        .ok [n, c.out_channels,
             convOutDim h c.kernel_size c.stride c.padding c.dilation,
             convOutDim w c.kernel_size c.stride c.padding c.dilation]
  | _ => .error .rank

/-- Shape semantics of `nn.BatchNorm2d`: 4-d input with matching channels. -/
def bnShape (p : BatchNorm2d) : Shape → Except Err Shape
  | [n, ch, h, w] =>
      if ch ≠ p.num_features then .error .channel else .ok [n, ch, h, w]
  | _ => .error .rank

/-- Shape semantics of `nn.MaxPool2d`: window must fit the padded input. -/
def maxPoolShape (k s p : Nat) : Shape → Except Err Shape
  | [n, ch, h, w] =>
      if h + 2 * p < k ∨ w + 2 * p < k then .error .kernelTooLarge
      else .ok [n, ch, convOutDim h k s p 1, convOutDim w k s p 1]
  | _ => .error .rank

/-- Shape semantics of `SeparableConv2d.forward`. -/
def sepShape (m : SeparableConv2d) (s : Shape) : Except Err Shape :=
  (convShape m.conv1 s).bind (convShape m.pointwise)

/-- Shape semantics of one `rep` element. -/
def repLayerShape : RepLayer → Shape → Except Err Shape
  | .relu _, s => .ok s
  | .sep m, s => sepShape m s
  | .bn p, s => bnShape p s
  | .maxpool k st p, s => maxPoolShape k st p s

/-- Shape semantics of `nn.Sequential(*rep)`. -/
def runRepE : List RepLayer → Shape → Except Err Shape
  | [], s => .ok s
  | l :: rest, s => (repLayerShape l s).bind (runRepE rest)

/-- Shape semantics of the in-place addition `x += skip`: the framework
accepts it when both operands have the same shape. -/
def addShape (a b : Shape) : Except Err Shape :=
  if a = b then .ok a else .error .addMismatch

/-- Shape semantics of `Block.forward`. -/
def blockShape (b : Block) (s : Shape) : Except Err Shape :=
  (runRepE b.rep s).bind fun x =>
    (match b.skip with
      | some sp => (convShape sp.1 s).bind (bnShape sp.2)
      | none => .ok s).bind fun sk =>
      addShape x sk

/-- Shape semantics of `F.avg_pool2d` with square kernel `k` (stride
equal to the kernel, no padding): the kernel must be positive and fit. -/
def avgPoolShape (k : Nat) : Shape → Except Err Shape
  | [n, ch, h, w] =>
      if k = 0 ∨ h < k ∨ w < k then .error .kernelTooLarge
      else .ok [n, ch, (h - k) / k + 1, (w - k) / k + 1]
  | _ => .error .rank

/-- Shape semantics of `x.view(x.size(0), -1)`. -/
def viewShape : Shape → Except Err Shape
  | [] => .error .rank
  | n :: rest => .ok [n, rest.prod]

/-- Shape semantics of `nn.Linear` as applied in this file: a 2-d input
whose feature count equals `in_features`. -/
def linShape (l : Linear) : Shape → Except Err Shape
  | [n, f] => if f ≠ l.in_features then .error .features else .ok [n, l.out_features]
  | _ => .error .rank

/-- One operation of the fixed forward graph of `Xception`. -/
inductive Stage where
  | conv (c : Conv2d)
  | bnorm (p : BatchNorm2d)
  | relu (inplace : Bool)
  | sep (m : SeparableConv2d)
  | blockS (b : Block)
  | avgpoolAdaptive
  | dropoutS
  | viewS
  | linear (l : Linear)

/-- Shape semantics of one stage.  `avgpoolAdaptive` models
`F.avg_pool2d(x, kernel_size=x.shape[2])`: the kernel is taken from the
input's height. -/
def stageShape : Stage → Shape → Except Err Shape
  | .conv c, s => convShape c s
  | .bnorm p, s => bnShape p s
  | .relu _, s => .ok s
  | .sep m, s => sepShape m s
  | .blockS b, s => blockShape b s
  | .avgpoolAdaptive, s =>
      match s with
      | [n, ch, h, w] => avgPoolShape h [n, ch, h, w]
      | _ => .error .rank
  | .dropoutS, s => .ok s
  | .viewS, s => viewShape s
  | .linear l, s => linShape l s

/-- Sequential composition of stages: each stage's output feeds the next,
errors propagate unchanged (the repository composes framework calls and
never catches). -/
def runStagesE : List Stage → Shape → Except Err Shape
  | [], s => .ok s
  | st :: rest, s => (stageShape st s).bind (runStagesE rest)

/-- The operations of `Xception.forward_features` in application order. -/
def Xception.featureStages (m : Xception) : List Stage :=
  [.conv m.conv1, .bnorm m.bn1, .relu true,
   .conv m.conv2, .bnorm m.bn2, .relu true,
   .blockS m.block1, .blockS m.block2, .blockS m.block3, .blockS m.block4,
   .blockS m.block5, .blockS m.block6, .blockS m.block7, .blockS m.block8,
   .blockS m.block9, .blockS m.block10, .blockS m.block11, .blockS m.block12,
   .sep m.conv3, .bnorm m.bn3, .relu true,
   .sep m.conv4, .bnorm m.bn4, .relu true]

/-- The operations of `Xception.forward` in application order: the
feature stages, adaptive average pooling, dropout when
`drop_rate > 0`, flattening, and the classifier `fc`. -/
def Xception.allStages (m : Xception) : List Stage :=
  m.featureStages ++
    (Stage.avgpoolAdaptive ::
      (if 0 < m.drop_rate then [Stage.dropoutS] else []) ++
        [Stage.viewS, Stage.linear m.fc])

/-- Shape semantics of a full `Xception.forward` call. -/
def Xception.forwardShape (m : Xception) (s : Shape) : Except Err Shape :=
  runStagesE m.allStages s

/-- Channel-count semantics of `nn.Conv2d`: declared input channels must
match, output has the declared output channels. -/
def convChan (c : Conv2d) (ch : Nat) : Option Nat :=
  if ch = c.in_channels then some c.out_channels else none

/-- Channel-count semantics of `SeparableConv2d`. -/
def sepChan (m : SeparableConv2d) (ch : Nat) : Option Nat :=
  (convChan m.conv1 ch).bind (convChan m.pointwise)

/-- Channel-count semantics of one `rep` element. -/
def repLayerChan : RepLayer → Nat → Option Nat
  | .relu _, ch => some ch
  | .sep m, ch => sepChan m ch
  | .bn p, ch => if ch = p.num_features then some ch else none
  | .maxpool _ _ _, ch => some ch

/-- Channel-count semantics of `nn.Sequential(*rep)`. -/
def repChan : List RepLayer → Nat → Option Nat
  | [], ch => some ch
  | l :: rest, ch => (repLayerChan l ch).bind (repChan rest)

/-- Channel-count semantics of `Block.forward`: the `rep` chain and the
skip branch must agree for `x += skip` to be accepted. -/
def blockChan (b : Block) (ch : Nat) : Option Nat :=
  (repChan b.rep ch).bind fun x =>
    (match b.skip with
      | some sp =>
          (convChan sp.1 ch).bind fun y =>
            if y = sp.2.num_features then some y else none
      | none => some ch).bind fun sk =>
      if x = sk then some x else none

/-- Channel-count semantics of one stage (feature-extractor stages only;
after flattening the channel dimension no longer exists). -/
def stageChan : Stage → Nat → Option Nat
  | .conv c, ch => convChan c ch
  | .bnorm p, ch => if ch = p.num_features then some ch else none
  | .relu _, ch => some ch
  | .sep m, ch => sepChan m ch
  | .blockS b, ch => blockChan b ch
  | .avgpoolAdaptive, ch => some ch
  | .dropoutS, ch => some ch
  | .viewS, _ => none
  | .linear _, _ => none

/-- Channel-count semantics of a stage sequence. -/
def chanStages : List Stage → Nat → Option Nat
  | [], ch => some ch
  | st :: rest, ch => (stageChan st ch).bind (chanStages rest)

/-- Layer-kind tests used by the batch-norm placement checks. -/
def RepLayer.isBn : RepLayer → Bool
  | .bn _ => true
  | _ => false

/-- Is this `rep` element a ReLU activation? -/
def RepLayer.isRelu : RepLayer → Bool
  | .relu _ => true
  | _ => false

/-- Is this `rep` element a separable convolution? -/
def RepLayer.isSep : RepLayer → Bool
  | .sep _ => true
  | _ => false

/-- Is this `rep` element a max pooling? -/
def RepLayer.isMaxpool : RepLayer → Bool
  | .maxpool _ _ _ => true
  | _ => false

/-- Is this stage a batch norm? -/
def Stage.isBnS : Stage → Bool
  | .bnorm _ => true
  | _ => false

/-- Is this stage a ReLU activation? -/
def Stage.isReluS : Stage → Bool
  | .relu _ => true
  | _ => false

/-- Is this stage a convolution (plain or separable)? -/
def Stage.isConvLike : Stage → Bool
  | .conv _ => true
  | .sep _ => true
  | _ => false

/-- Every batch-norm stage directly follows a convolution stage
(`prev` records whether the previous stage was a convolution). -/
def bnAfterConvAux (prev : Bool) : List Stage → Bool
  | [] => true
  | x :: rest => (!x.isBnS || prev) && bnAfterConvAux x.isConvLike rest

/-- Every batch-norm stage of the list directly follows a convolution. -/
def bnAfterConvS (l : List Stage) : Bool := bnAfterConvAux false l

/-- Every batch-norm stage is directly followed by a ReLU stage. -/
def bnNextReluS : List Stage → Bool
  | [] => true
  | x :: rest =>
      (!x.isBnS || (match rest with
        | y :: _ => y.isReluS
        | [] => false)) && bnNextReluS rest

/-- Every batch norm of a `rep` list directly follows a separable
convolution. -/
def bnAfterSepAux (prev : Bool) : List RepLayer → Bool
  | [] => true
  | x :: rest => (!x.isBn || prev) && bnAfterSepAux x.isSep rest

/-- Every batch norm of a `rep` list directly follows a separable
convolution. -/
def bnAfterSepR (l : List RepLayer) : Bool := bnAfterSepAux false l

/-- The claimed consumer property: every batch norm of a `rep` list is
directly followed by a ReLU. -/
def bnNextReluR : List RepLayer → Bool
  | [] => true
  | x :: rest =>
      (!x.isBn || (match rest with
        | y :: _ => y.isRelu
        | [] => false)) && bnNextReluR rest

/-- The consumer property the code satisfies: every batch norm of a
`rep` list is followed by a ReLU, by a trailing max pooling, or ends the
list (its output then feeds the residual addition). -/
def bnConsOkR : List RepLayer → Bool
  | [] => true
  | x :: rest =>
      (!x.isBn || (match rest with
        | y :: rest2 => y.isRelu || (y.isMaxpool && rest2.isEmpty)
        | [] => true)) && bnConsOkR rest

/-- Does the `rep` list end with a max pooling? -/
def endsWithMaxpool (l : List RepLayer) : Bool :=
  match l.getLast? with
  | some x => x.isMaxpool
  | none => false

/-- Does the `rep` list end with a batch norm? -/
def endsWithBn (l : List RepLayer) : Bool :=
  match l.getLast? with
  | some x => x.isBn
  | none => false

/-- The twelve blocks of the network in forward order. -/
def Xception.blocks (m : Xception) : List Block :=
  [m.block1, m.block2, m.block3, m.block4, m.block5, m.block6, m.block7,
   m.block8, m.block9, m.block10, m.block11, m.block12]

/-- Does this stage keep a 4-d input 4-d (all except flatten and `fc`)? -/
def Stage.preserves4d : Stage → Bool
  | .viewS => false
  | .linear _ => false
  | _ => true

/-- All-zero convolution weight, used to instantiate witnesses. -/
def z4 : W4 := fun _ _ _ _ => 0

/-- All-zero per-channel parameter vector, used to instantiate witnesses. -/
def z1 : W1 := fun _ => 0

/-- All-zero parameter pack, used to instantiate witnesses. -/
def zeroP : Params :=
  { conv1W := fun _ _ _ _ => 0
    bn1Scale := fun _ => 0
    bn1Shift := fun _ => 0
    conv2W := fun _ _ _ _ => 0
    bn2Scale := fun _ => 0
    bn2Shift := fun _ => 0
    bp := fun _ =>
      { skipW := fun _ _ _ _ => 0
        skipScale := fun _ => 0
        skipShift := fun _ => 0
        rp := fun _ =>
          { dw := fun _ _ _ _ => 0
            pw := fun _ _ _ _ => 0
            bnScale := fun _ => 0
            bnShift := fun _ => 0 } }
    conv3P := { dw := fun _ _ _ _ => 0, pw := fun _ _ _ _ => 0
                bnScale := fun _ => 0, bnShift := fun _ => 0 }
    conv4P := { dw := fun _ _ _ _ => 0, pw := fun _ _ _ _ => 0
                bnScale := fun _ => 0, bnShift := fun _ => 0 }
    fcW := fun _ _ => 0
    fcB := fun _ => 0 }

/-- A concrete default network (`Xception()` with zero parameters). -/
def mkD : Xception := Xception.make 1000 3 0 zeroP

/-- All-zero per-iteration parameters, for concrete blocks. -/
def zeroRp : Nat → RepP :=
  fun _ => { dw := fun _ _ _ _ => 0, pw := fun _ _ _ _ => 0
             bnScale := fun _ => 0, bnShift := fun _ => 0 }

/-- Concrete block for the residual-decomposition witness:
`Block(1, 2, 1, 1)`. -/
def blkW : Block :=
  (Block.init 1 2 1 1 true true z4 z1 z1 zeroRp).get rfl

/-- Concrete degenerate block `Block(1, 1, 0, 1, start_with_relu=False)`:
empty `rep`, no projection. -/
def blk0 : Block :=
  (Block.init 1 1 0 1 false true z4 z1 z1 zeroRp).get rfl

/-- Concrete `1 × 1 × 1 × 1` input tensor with value `1`. -/
def oneT : Tensor := ⟨1, 1, 1, 1, fun _ _ _ _ => 1⟩

theorem conv2dApplyS_snd (c : Conv2d) (x : Tensor) : (conv2dApplyS c x).2 = c := rfl

theorem bnApplyS_snd (p : BatchNorm2d) (x : Tensor) : (bnApplyS p x).2 = p := rfl

theorem linApplyS_snd (l : Linear) (x : Tensor2) : (linApplyS l x).2 = l := rfl

theorem sepForwardS_snd (m : SeparableConv2d) (x : Tensor) : (m.forwardS x).2 = m := rfl

theorem repLayerApplyS_snd (l : RepLayer) (x : Tensor) : (repLayerApplyS l x).2 = l := by
  cases l <;> rfl

theorem runRepS_snd (l : List RepLayer) : ∀ x, (runRepS l x).2 = l := by
  induction l with
  | nil => intro x; rfl
  | cons a t ih => intro x; simp [runRepS, repLayerApplyS_snd, ih]

theorem blockForwardS_snd (b : Block) (y : Tensor) : (b.forwardS y).2 = b := by
  cases b with
  | mk skip rep =>
      cases skip <;>
        simp [Block.forwardS, runRepS_snd, conv2dApplyS_snd, bnApplyS_snd]

theorem xcForwardS_snd (m : Xception) (x : Tensor) : (m.forwardS x).2 = m := by
  simp [Xception.forwardS, blockForwardS_snd, conv2dApplyS_snd, bnApplyS_snd,
    sepForwardS_snd, linApplyS_snd]

theorem buildRep_cons (ic oc r : Nat) (gf : Bool) (rp : Nat → RepP) :
    ∃ s0 b0 t, Block.buildRep ic oc (r + 1) gf rp =
      RepLayer.relu true :: RepLayer.sep s0 :: RepLayer.bn b0 :: t := by
  rw [Block.buildRep, List.range_succ_eq_map, List.flatMap_cons]
  exact ⟨_, _, _, rfl⟩

theorem runRepAlias_frame (l : List RepLayer) :
    ∀ st : AState, st.aliased = false →
      (runRepAlias l st).aliased = false ∧ (runRepAlias l st).inpBuf = st.inpBuf := by
  induction l with
  | nil => intro st h; exact ⟨h, rfl⟩
  | cons a t ih =>
      intro st h
      have hstep : (repLayerAlias a st).aliased = false ∧
          (repLayerAlias a st).inpBuf = st.inpBuf := by
        cases a with
        | relu ip => cases ip <;> simp [repLayerAlias, h]
        | sep m => exact ⟨rfl, rfl⟩
        | bn p => exact ⟨rfl, rfl⟩
        | maxpool k s p => exact ⟨rfl, rfl⟩
      have := ih (repLayerAlias a st) hstep.1
      exact ⟨this.1, by rw [runRepAlias, this.2, hstep.2]⟩

theorem blockAlias_of_cons (sk : Option (Conv2d × BatchNorm2d)) (a : RepLayer)
    (rest : List RepLayer) (inp : Tensor)
    (ha : (repLayerAlias a ⟨inp, inp, true⟩).aliased = false ∧
      (repLayerAlias a ⟨inp, inp, true⟩).inpBuf = inp) :
    (Block.forwardAlias ⟨sk, a :: rest⟩ inp).2 = inp := by
  have hf := runRepAlias_frame rest (repLayerAlias a ⟨inp, inp, true⟩) ha.1
  simp [Block.forwardAlias, runRepAlias, hf.1, hf.2, ha.2]

theorem chain_error_iff {α : Type}
    (step : α → Shape → Except Err Shape)
    (run : List α → Shape → Except Err Shape)
    (hnil : ∀ s, run [] s = .ok s)
    (hcons : ∀ a l s, run (a :: l) s = (step a s).bind (run l)) :
    ∀ (l : List α) (s : Shape) (e : Err),
      run l s = .error e ↔
        ∃ l1 a l2 t, l = l1 ++ a :: l2 ∧ run l1 s = .ok t ∧ step a t = .error e := by
  intro l
  induction l with
  | nil =>
      intro s e
      constructor
      · intro h
        rw [hnil] at h
        exact Except.noConfusion h
      · rintro ⟨l1, a, l2, t, hl, _, _⟩
        exact absurd hl (by simp)
  | cons a l ih =>
      intro s e
      rw [hcons]
      cases ha : step a s with
      | error e2 =>
          constructor
          · intro h
            simp only [Except.bind] at h
            injection h with h
            subst h
            exact ⟨[], a, l, s, rfl, hnil s, ha⟩
          · rintro ⟨l1, b, l2, t, hl, hok, herr⟩
            cases l1 with
            | nil =>
                simp only [List.nil_append] at hl
                obtain ⟨rfl, rfl⟩ := List.cons.inj hl
                rw [hnil] at hok
                injection hok with hok
                subst hok
                rw [ha] at herr
                injection herr with herr
                subst herr
                simp only [Except.bind]
            | cons c l1 =>
                obtain ⟨rfl, rfl⟩ := List.cons.inj hl
                rw [hcons, ha] at hok
                simp only [Except.bind] at hok
                exact Except.noConfusion hok
      | ok u =>
          simp only [Except.bind]
          rw [ih u e]
          constructor
          · rintro ⟨l1, b, l2, t, hl, hok, herr⟩
            exact ⟨a :: l1, b, l2, t, by rw [hl]; rfl,
              by rw [hcons, ha]; simpa only [Except.bind] using hok, herr⟩
          · rintro ⟨l1, b, l2, t, hl, hok, herr⟩
            cases l1 with
            | nil =>
                simp only [List.nil_append] at hl
                obtain ⟨rfl, rfl⟩ := List.cons.inj hl
                rw [hnil] at hok
                injection hok with hok
                subst hok
                rw [ha] at herr
                exact Except.noConfusion herr
            | cons c l1 =>
                obtain ⟨rfl, rfl⟩ := List.cons.inj hl
                rw [hcons, ha] at hok
                simp only [Except.bind] at hok
                exact ⟨l1, b, l2, t, rfl, hok, herr⟩

theorem runStagesE_append (l1 l2 : List Stage) :
    ∀ s, runStagesE (l1 ++ l2) s = (runStagesE l1 s).bind (runStagesE l2) := by
  induction l1 with
  | nil => intro s; rfl
  | cons a t ih =>
      intro s
      rw [List.cons_append, runStagesE, runStagesE]
      cases stageShape a s <;> simp [Except.bind, ih]

theorem linShape_ok (l : Linear) (d out : Shape) (h : linShape l d = .ok out) :
    ∃ n, out = [n, l.out_features] := by
  obtain _ | ⟨n, _ | ⟨f, _ | ⟨c, rest⟩⟩⟩ := d
  · exact Except.noConfusion h
  · exact Except.noConfusion h
  · simp only [linShape] at h
    split_ifs at h
    all_goals injection h with h
    all_goals exact ⟨n, h.symm⟩
  · exact Except.noConfusion h

theorem convShape_ok (c : Conv2d) (s t : Shape) (h : convShape c s = .ok t) :
    ∃ n a b, t = [n, c.out_channels, a + 1, b + 1] := by
  obtain _ | ⟨n, _ | ⟨ch, _ | ⟨hh, _ | ⟨w, rest⟩⟩⟩⟩ := s
  · exact Except.noConfusion h
  · exact Except.noConfusion h
  · exact Except.noConfusion h
  · exact Except.noConfusion h
  · obtain _ | ⟨r, rest⟩ := rest
    · simp only [convShape] at h
      split_ifs at h
      all_goals injection h with h
      all_goals exact ⟨n, _, _, h.symm⟩
    · exact Except.noConfusion h

theorem convShape_sq (c : Conv2d) (n ch hh : Nat) (t : Shape)
    (h : convShape c [n, ch, hh, hh] = .ok t) :
    ∃ c2 h2, t = [n, c2, h2, h2] := by
  simp only [convShape] at h
  split_ifs at h
  all_goals injection h with h
  all_goals exact ⟨c.out_channels, _, h.symm⟩

theorem sepShape_sq (m : SeparableConv2d) (n ch hh : Nat) (t : Shape)
    (h : sepShape m [n, ch, hh, hh] = .ok t) :
    ∃ c2 h2, t = [n, c2, h2, h2] := by
  rw [sepShape] at h
  cases h1 : convShape m.conv1 [n, ch, hh, hh] with
  | error e => rw [h1] at h; exact Except.noConfusion h
  | ok u =>
      rw [h1] at h
      simp only [Except.bind] at h
      obtain ⟨c2, h2, rfl⟩ := convShape_sq m.conv1 n ch hh u h1
      exact convShape_sq m.pointwise n c2 h2 t h

theorem bnShape_sq (p : BatchNorm2d) (n ch hh : Nat) (t : Shape)
    (h : bnShape p [n, ch, hh, hh] = .ok t) :
    ∃ c2 h2, t = [n, c2, h2, h2] := by
  simp only [bnShape] at h
  split_ifs at h
  all_goals injection h with h
  all_goals exact ⟨ch, hh, h.symm⟩

theorem maxPoolShape_sq (k s p : Nat) (n ch hh : Nat) (t : Shape)
    (h : maxPoolShape k s p [n, ch, hh, hh] = .ok t) :
    ∃ c2 h2, t = [n, c2, h2, h2] := by
  simp only [maxPoolShape] at h
  split_ifs at h
  all_goals injection h with h
  all_goals exact ⟨ch, _, h.symm⟩

theorem repLayerShape_sq (rl : RepLayer) (n ch hh : Nat) (t : Shape)
    (h : repLayerShape rl [n, ch, hh, hh] = .ok t) :
    ∃ c2 h2, t = [n, c2, h2, h2] := by
  cases rl with
  | relu ip => injection h with h; exact ⟨ch, hh, h.symm⟩
  | sep m => exact sepShape_sq m n ch hh t h
  | bn p => exact bnShape_sq p n ch hh t h
  | maxpool k s p => exact maxPoolShape_sq k s p n ch hh t h

theorem runRepE_sq (l : List RepLayer) :
    ∀ (n ch hh : Nat) (t : Shape), runRepE l [n, ch, hh, hh] = .ok t →
      ∃ c2 h2, t = [n, c2, h2, h2] := by
  induction l with
  | nil => intro n ch hh t h; injection h with h; exact ⟨ch, hh, h.symm⟩
  | cons a rest ih =>
      intro n ch hh t h
      rw [runRepE] at h
      cases ha : repLayerShape a [n, ch, hh, hh] with
      | error e => rw [ha] at h; exact Except.noConfusion h
      | ok u =>
          rw [ha] at h
          simp only [Except.bind] at h
          obtain ⟨c2, h2, rfl⟩ := repLayerShape_sq a n ch hh u ha
          exact ih n c2 h2 t h

theorem blockShape_sq (b : Block) (n ch hh : Nat) (t : Shape)
    (h : blockShape b [n, ch, hh, hh] = .ok t) :
    ∃ c2 h2, t = [n, c2, h2, h2] := by
  rw [blockShape] at h
  cases hx : runRepE b.rep [n, ch, hh, hh] with
  | error e => rw [hx] at h; exact Except.noConfusion h
  | ok x =>
      rw [hx] at h
      simp only [Except.bind] at h
      obtain ⟨c2, h2, rfl⟩ := runRepE_sq b.rep n ch hh x hx
      cases hskip : b.skip with
      | none =>
          rw [hskip] at h
          simp only [addShape] at h
          split_ifs at h
          all_goals injection h with h
          all_goals exact ⟨c2, h2, h.symm⟩
      | some sp =>
          rw [hskip] at h
          dsimp only at h
          cases hc : convShape sp.1 [n, ch, hh, hh] with
          | error e => rw [hc] at h; exact Except.noConfusion h
          | ok v =>
              rw [hc] at h
              dsimp only at h
              cases hb : bnShape sp.2 v with
              | error e => rw [hb] at h; exact Except.noConfusion h
              | ok sk =>
                  rw [hb] at h
                  dsimp only at h
                  simp only [addShape] at h
                  split_ifs at h
                  all_goals injection h with h
                  all_goals exact ⟨c2, h2, h.symm⟩

theorem stageShape_sq (st : Stage) (h4 : st.preserves4d = true) (n ch hh : Nat)
    (t : Shape) (h : stageShape st [n, ch, hh, hh] = .ok t) :
    ∃ c2 h2, t = [n, c2, h2, h2] := by
  cases st with
  | conv c => exact convShape_sq c n ch hh t h
  | bnorm p => exact bnShape_sq p n ch hh t h
  | relu ip => injection h with h; exact ⟨ch, hh, h.symm⟩
  | sep m => exact sepShape_sq m n ch hh t h
  | blockS b => exact blockShape_sq b n ch hh t h
  | avgpoolAdaptive =>
      simp only [stageShape, avgPoolShape] at h
      split_ifs at h
      all_goals injection h with h
      all_goals exact ⟨ch, _, h.symm⟩
  | dropoutS => injection h with h; exact ⟨ch, hh, h.symm⟩
  | viewS => exact Bool.noConfusion h4
  | linear l => exact Bool.noConfusion h4

theorem runStagesE_sq (l : List Stage) :
    ∀ (n ch hh : Nat) (t : Shape), l.all Stage.preserves4d = true →
      runStagesE l [n, ch, hh, hh] = .ok t →
      ∃ c2 h2, t = [n, c2, h2, h2] := by
  induction l with
  | nil => intro n ch hh t _ h; injection h with h; exact ⟨ch, hh, h.symm⟩
  | cons a rest ih =>
      intro n ch hh t hall h
      rw [List.all_cons, Bool.and_eq_true] at hall
      rw [runStagesE] at h
      cases ha : stageShape a [n, ch, hh, hh] with
      | error e => rw [ha] at h; exact Except.noConfusion h
      | ok u =>
          rw [ha] at h
          simp only [Except.bind] at h
          obtain ⟨c2, h2, rfl⟩ := stageShape_sq a hall.1 n ch hh u ha
          exact ih n c2 h2 t hall.2 h

theorem featureStages_split (m : Xception) :
    m.featureStages = m.featureStages.take 21 ++
      [.sep m.conv4, .bnorm m.bn4, .relu true] := rfl

theorem features_c2048 (nc ic : Nat) (dr : ℚ) (P : Params) (s f : Shape)
    (h : runStagesE (Xception.make nc ic dr P).featureStages s = .ok f) :
    ∃ n2 a b, f = [n2, 2048, a + 1, b + 1] := by
  rw [featureStages_split, runStagesE_append] at h
  cases hu : runStagesE ((Xception.make nc ic dr P).featureStages.take 21) s with
  | error e => rw [hu] at h; exact Except.noConfusion h
  | ok u =>
      rw [hu] at h
      simp only [Except.bind] at h
      rw [runStagesE] at h
      cases hsep : stageShape (.sep (Xception.make nc ic dr P).conv4) u with
      | error e => rw [hsep] at h; exact Except.noConfusion h
      | ok v =>
          rw [hsep] at h
          simp only [Except.bind] at h
          rw [runStagesE] at h
          cases hbn : stageShape (.bnorm (Xception.make nc ic dr P).bn4) v with
          | error e => rw [hbn] at h; exact Except.noConfusion h
          | ok v2 =>
              rw [hbn] at h
              simp only [Except.bind] at h
              rw [runStagesE] at h
              simp only [stageShape, Except.bind, runStagesE] at h
              -- h : .ok v2 = .ok f  (relu then nil)
              injection h with h
              subst h
              -- v comes from sepShape conv4 u; v2 = v by bnShape
              have hsep2 : sepShape (Xception.make nc ic dr P).conv4 u = .ok v := hsep
              rw [sepShape] at hsep2
              cases hc1 : convShape (Xception.make nc ic dr P).conv4.conv1 u with
              | error e => rw [hc1] at hsep2; exact Except.noConfusion hsep2
              | ok w1 =>
                  rw [hc1] at hsep2
                  simp only [Except.bind] at hsep2
                  obtain ⟨n2, a, b, rfl⟩ :=
                    convShape_ok (Xception.make nc ic dr P).conv4.pointwise w1 v hsep2
                  -- v2 = v via bnShape on a 4-long list
                  have hbn2 : bnShape (Xception.make nc ic dr P).bn4
                      [n2, (Xception.make nc ic dr P).conv4.pointwise.out_channels,
                        a + 1, b + 1] = .ok v2 := hbn
                  simp only [bnShape] at hbn2
                  split_ifs at hbn2
                  injection hbn2 with hbn2
                  exact ⟨n2, a, b, hbn2.symm⟩

theorem allStages_split (m : Xception) :
    m.allStages = (m.featureStages ++ Stage.avgpoolAdaptive ::
      ((if 0 < m.drop_rate then [Stage.dropoutS] else []) ++ [Stage.viewS])) ++
      [Stage.linear m.fc] := by
  simp [Xception.allStages]

/-- Claim C1: for every constructed `Block` and every input, `forward`
returns `rep(inp) + skip(inp)`, where the skip branch is `skipbn` after a
1x1 convolution of stride `strides` exactly when
`out_channels != in_channels or strides != 1`, and the unprojected input
otherwise. -/
theorem blockForward_eq_rep_add_skip
    (ic oc reps strides : Nat) (swr gf : Bool)
    (sw : W4) (ssc ssh : W1) (rp : Nat → RepP) (blk : Block)
    (h : Block.init ic oc reps strides swr gf sw ssc ssh rp = some blk)
    (inp : Tensor) :
    blk.forward inp =
      addT (runRep blk.rep inp)
        (if oc ≠ ic ∨ strides ≠ 1 then
          bnApply ⟨oc, ssc, ssh⟩ (conv2dApply ⟨ic, oc, 1, strides, 0, 1, 1, sw⟩ inp)
        else inp) := by
  simp only [Block.init] at h
  split at h
  · exact Option.noConfusion h
  · injection h with h
    subst h
    by_cases hc : oc ≠ ic ∨ strides ≠ 1
    · simp only [Block.forward, if_pos hc]
    · simp only [Block.forward, if_neg hc]

/-- Witness for C1: the decomposition evaluated at `Block(1, 2, 1, 1)`
with zero parameters on a concrete input. -/
theorem blockForward_eq_rep_add_skip_wit :
    Block.forward blkW oneT =
      addT (runRep blkW.rep oneT)
        (if (2 : Nat) ≠ 1 ∨ (1 : Nat) ≠ 1 then
          bnApply ⟨2, z1, z1⟩ (conv2dApply ⟨1, 2, 1, 1, 0, 1, 1, z4⟩ oneT)
        else oneT) :=
  blockForward_eq_rep_add_skip 1 2 1 1 true true z4 z1 z1 zeroRp blkW rfl oneT

/-- Claim C2: `SeparableConv2d.forward` is the 1x1 stride-1 unpadded
pointwise convolution (no bias, `in -> out` channels) applied after the
depthwise convolution (`groups = in_channels`, channel count preserved,
no bias, given kernel/stride/padding/dilation). -/
theorem sepConv_forward_depthwise_then_pointwise
    (ic oc k s p d : Nat) (w1 wp : W4) (x : Tensor) :
    (SeparableConv2d.init ic oc k s p d w1 wp).forward x =
      conv2dApply ⟨ic, oc, 1, 1, 0, 1, 1, wp⟩
        (conv2dApply ⟨ic, ic, k, s, p, d, ic, w1⟩ x) := rfl

/-- Counterexample for C3 as stated: with `in = out = kernel = 1` the
separable convolution has 2 weights while the standard convolution has 1,
so "strictly less for every in, out, k >= 1" fails. -/
theorem sepConv_weight_count_cex :
    ¬((SeparableConv2d.init 1 1 1 1 0 1 z4 z4).weightNumel <
      Conv2d.weightNumel ⟨1, 1, 1, 1, 0, 1, 1, z4⟩) := by decide

/-- Claim C3 (amended): for `in_channels >= 1`, `out_channels >= 2` and
`kernel_size >= 2`, the weight count of `SeparableConv2d`
(`in*k^2 + in*out`) is strictly below the `in*out*k^2` weights of a
standard bias-free convolution. -/
theorem sepConv_weight_count_lt (i o k : Nat) (w1 wp wstd : W4)
    (hi : 1 ≤ i) (ho : 2 ≤ o) (hk : 2 ≤ k) :
    (SeparableConv2d.init i o k 1 0 1 w1 wp).weightNumel <
      Conv2d.weightNumel ⟨i, o, k, 1, 0, 1, 1, wstd⟩ := by
  simp only [SeparableConv2d.weightNumel, SeparableConv2d.init, Conv2d.weightNumel]
  rw [Nat.div_self hi, Nat.div_one]
  have ha : 4 ≤ k * k := Nat.mul_le_mul hk hk
  have key : k * k + o < o * (k * k) := by nlinarith
  have h2 : i * (k * k + o) < i * (o * (k * k)) :=
    mul_lt_mul_of_pos_left key (by omega)
  have e1 : i * (k * k + o) = i * 1 * (k * k) + o * i * (1 * 1) := by ring
  have e2 : i * (o * (k * k)) = o * i * (k * k) := by ring
  linarith

/-- Witness for C3 (amended): at `in = 1`, `out = 2`, `k = 2` the counts
are 6 < 8. -/
theorem sepConv_weight_count_lt_wit :
    (SeparableConv2d.init 1 2 2 1 0 1 z4 z4).weightNumel <
      Conv2d.weightNumel ⟨1, 2, 2, 1, 0, 1, 1, z4⟩ :=
  sepConv_weight_count_lt 1 2 2 z4 z4 z4 (by decide) (by decide) (by decide)

/-- Counterexample for C4 as stated: in the constructed network,
`block1`'s `rep` contains a batch norm whose immediate consumer is the
trailing `MaxPool2d`, not a ReLU. -/
theorem bn_next_relu_cex : bnNextReluR mkD.block1.rep = false := rfl

/-- Claim C4 (amended): every batch norm directly follows a convolution
(in the stem/head stage order and inside every block's `rep`), and every
batch norm's output feeds a ReLU except the final batch norm of a
block's `rep`, which feeds the trailing `MaxPool2d` in the strided
blocks (1, 2, 3, 12) and the residual addition in the stride-1 blocks
(4..11). -/
theorem bn_placement_amended (nc ic : Nat) (dr : ℚ) (P : Params) :
    bnAfterConvS (Xception.make nc ic dr P).featureStages = true ∧
    bnNextReluS (Xception.make nc ic dr P).featureStages = true ∧
    ((Xception.make nc ic dr P).blocks.all fun b =>
      bnAfterSepR b.rep && bnConsOkR b.rep) = true ∧
    (([(Xception.make nc ic dr P).block1, (Xception.make nc ic dr P).block2,
       (Xception.make nc ic dr P).block3, (Xception.make nc ic dr P).block12]).all
      fun b => endsWithMaxpool b.rep) = true ∧
    (([(Xception.make nc ic dr P).block4, (Xception.make nc ic dr P).block5,
       (Xception.make nc ic dr P).block6, (Xception.make nc ic dr P).block7,
       (Xception.make nc ic dr P).block8, (Xception.make nc ic dr P).block9,
       (Xception.make nc ic dr P).block10, (Xception.make nc ic dr P).block11]).all
      fun b => endsWithBn b.rep) = true :=
  ⟨rfl, rfl, rfl, rfl, rfl⟩

/-- Claim C5: a forward call on `Xception`, `Block` or `SeparableConv2d`
hands every module (hence every weight and bias) back unchanged: the
state-passing renderings return their parameter state intact. -/
theorem forward_preserves_parameters (m : Xception) (b : Block)
    (sc : SeparableConv2d) (x y z : Tensor) :
    (m.forwardS x).2 = m ∧ (b.forwardS y).2 = b ∧ (sc.forwardS z).2 = sc :=
  ⟨xcForwardS_snd m x, blockForwardS_snd b y, sepForwardS_snd sc z⟩

/-- Claim C6: in every constructed network the declared channel
interfaces of consecutive stages agree: the stem maps `in_chans` to 32
to 64, blocks 1..3 map 64 to 128 to 256 to 728, blocks 4..11 preserve
728, block 12 maps 728 to 1024, the head maps 1024 to 1536 to 2048 =
`num_features`, and the whole feature chain therefore accepts `in_chans`
and outputs 2048 channels. -/
theorem xception_channels_compatible (nc ic : Nat) (dr : ℚ) (P : Params) :
    convChan (Xception.make nc ic dr P).conv1 ic = some 32 ∧
    convChan (Xception.make nc ic dr P).conv2 32 = some 64 ∧
    blockChan (Xception.make nc ic dr P).block1 64 = some 128 ∧
    blockChan (Xception.make nc ic dr P).block2 128 = some 256 ∧
    blockChan (Xception.make nc ic dr P).block3 256 = some 728 ∧
    blockChan (Xception.make nc ic dr P).block4 728 = some 728 ∧
    blockChan (Xception.make nc ic dr P).block5 728 = some 728 ∧
    blockChan (Xception.make nc ic dr P).block6 728 = some 728 ∧
    blockChan (Xception.make nc ic dr P).block7 728 = some 728 ∧
    blockChan (Xception.make nc ic dr P).block8 728 = some 728 ∧
    blockChan (Xception.make nc ic dr P).block9 728 = some 728 ∧
    blockChan (Xception.make nc ic dr P).block10 728 = some 728 ∧
    blockChan (Xception.make nc ic dr P).block11 728 = some 728 ∧
    blockChan (Xception.make nc ic dr P).block12 728 = some 1024 ∧
    sepChan (Xception.make nc ic dr P).conv3 1024 = some 1536 ∧
    sepChan (Xception.make nc ic dr P).conv4 1536 = some 2048 ∧
    (Xception.make nc ic dr P).num_features = 2048 ∧
    chanStages (Xception.make nc ic dr P).featureStages ic = some 2048 := by
  have h1 : convChan (Xception.make nc ic dr P).conv1 ic = some 32 := by
    show (if ic = ic then some 32 else none) = some 32
    simp
  refine ⟨h1, rfl, rfl, rfl, rfl, rfl, rfl, rfl, rfl, rfl, rfl, rfl, rfl, rfl,
    rfl, rfl, rfl, ?_⟩
  show (convChan (Xception.make nc ic dr P).conv1 ic).bind
      (chanStages ((Xception.make nc ic dr P).featureStages.drop 1)) = some 2048
  rw [h1]
  rfl

/-- Claim C7: when a forward call succeeds, the result comes out of the
final linear classifier `fc`: it has exactly `num_classes` features per
batch element, and `fc` maps `num_features = 2048` pooled features to
`num_classes`. -/
theorem forward_final_classifier (nc ic : Nat) (dr : ℚ) (P : Params)
    (s out : Shape)
    (h : (Xception.make nc ic dr P).forwardShape s = .ok out) :
    (∃ n, out = [n, nc]) ∧
    (Xception.make nc ic dr P).fc.in_features =
      (Xception.make nc ic dr P).num_features ∧
    (Xception.make nc ic dr P).num_features = 2048 := by
  refine ⟨?_, rfl, rfl⟩
  rw [Xception.forwardShape, allStages_split, runStagesE_append] at h
  cases hd : runStagesE ((Xception.make nc ic dr P).featureStages ++
      Stage.avgpoolAdaptive ::
        ((if 0 < (Xception.make nc ic dr P).drop_rate then [Stage.dropoutS] else []) ++
          [Stage.viewS])) s with
  | error e => rw [hd] at h; exact Except.noConfusion h
  | ok d =>
      rw [hd] at h
      simp only [Except.bind] at h
      rw [runStagesE] at h
      cases hl : stageShape (Stage.linear (Xception.make nc ic dr P).fc) d with
      | error e => rw [hl] at h; exact Except.noConfusion h
      | ok o2 =>
          rw [hl] at h
          simp only [Except.bind, runStagesE] at h
          injection h with h
          subst h
          obtain ⟨n, rfl⟩ := linShape_ok (Xception.make nc ic dr P).fc d o2 hl
          exact ⟨n, rfl⟩

/-- Witness for C7: the default network on a `1 x 3 x 299 x 299` input
returns a `1 x 1000` result through `fc`. -/
theorem forward_final_classifier_wit :
    (∃ n, ([1, 1000] : Shape) = [n, 1000]) ∧
    (Xception.make 1000 3 0 zeroP).fc.in_features =
      (Xception.make 1000 3 0 zeroP).num_features ∧
    (Xception.make 1000 3 0 zeroP).num_features = 2048 :=
  forward_final_classifier 1000 3 0 zeroP [1, 3, 299, 299] [1, 1000] rfl

/-- Claim C8: errors of a forward call are exactly the errors raised by
an individual framework primitive, propagated unchanged through the
repository's sequential composition: a stage sequence (in particular the
full forward pipeline) fails with `e` precisely when some stage fails
with `e` after all stages before it succeeded, and likewise for the
`rep` sequences inside blocks. -/
theorem forward_errors_from_primitives :
    (∀ (m : Xception) (s : Shape) (e : Err),
      m.forwardShape s = .error e ↔
        ∃ l1 st l2 t, m.allStages = l1 ++ st :: l2 ∧ runStagesE l1 s = .ok t ∧
          stageShape st t = .error e) ∧
    (∀ (r : List RepLayer) (s : Shape) (e : Err),
      runRepE r s = .error e ↔
        ∃ l1 a l2 t, r = l1 ++ a :: l2 ∧ runRepE l1 s = .ok t ∧
          repLayerShape a t = .error e) := by
  constructor
  · intro m s e
    exact chain_error_iff stageShape runStagesE (fun _ => rfl) (fun _ _ _ => rfl)
      m.allStages s e
  · intro r s e
    exact chain_error_iff repLayerShape runRepE (fun _ => rfl) (fun _ _ _ => rfl)
      r s e

/-- Claim C9 (amended): for every constructed `Block` with `reps >= 1`,
the leading in-place ReLU is replaced by a non-in-place one when
`start_with_relu`, is removed (leaving a separable convolution first)
otherwise, and a forward call leaves the caller's input buffer
unchanged. -/
theorem blockForward_input_unchanged (ic oc reps strides : Nat) (swr gf : Bool)
    (sw : W4) (ssc ssh : W1) (rp : Nat → RepP) (blk : Block)
    (hreps : 1 ≤ reps)
    (h : Block.init ic oc reps strides swr gf sw ssc ssh rp = some blk)
    (inp : Tensor) :
    (swr = true → blk.rep.head? = some (RepLayer.relu false)) ∧
    (swr = false → ∃ m, blk.rep.head? = some (RepLayer.sep m)) ∧
    (blk.forwardAlias inp).2 = inp := by
  obtain ⟨r, rfl⟩ : ∃ r, reps = r + 1 := ⟨reps - 1, by omega⟩
  obtain ⟨s0, b0, t, hrep⟩ := buildRep_cons ic oc r gf rp
  cases swr with
  | true =>
      simp only [Block.init, hrep] at h
      simp at h
      subst h
      by_cases hs : strides = 1
      · refine ⟨fun _ => ?_, fun hf => absurd hf (by simp), ?_⟩
        · rw [if_pos hs]; rfl
        · rw [if_pos hs]
          exact blockAlias_of_cons _ _ _ _ ⟨rfl, rfl⟩
      · refine ⟨fun _ => ?_, fun hf => absurd hf (by simp), ?_⟩
        · rw [if_neg hs]; rfl
        · rw [if_neg hs]
          exact blockAlias_of_cons _ _ _ _ ⟨rfl, rfl⟩
  | false =>
      simp only [Block.init, hrep] at h
      simp at h
      subst h
      by_cases hs : strides = 1
      · refine ⟨fun hf => absurd hf (by simp), fun _ => ?_, ?_⟩
        · rw [if_pos hs]
          exact ⟨s0, rfl⟩
        · rw [if_pos hs]
          exact blockAlias_of_cons _ _ _ _ ⟨rfl, rfl⟩
      · refine ⟨fun hf => absurd hf (by simp), fun _ => ?_, ?_⟩
        · rw [if_neg hs]
          exact ⟨s0, rfl⟩
        · rw [if_neg hs]
          exact blockAlias_of_cons _ _ _ _ ⟨rfl, rfl⟩

/-- Witness for C9 (amended): evaluated at `Block(1, 2, 1, 1)` with a
concrete input. -/
theorem blockForward_input_unchanged_wit :
    (true = true → blkW.rep.head? = some (RepLayer.relu false)) ∧
    (true = false → ∃ m, blkW.rep.head? = some (RepLayer.sep m)) ∧
    (Block.forwardAlias blkW oneT).2 = oneT :=
  blockForward_input_unchanged 1 2 1 1 true true z4 z1 z1 zeroRp blkW
    (by decide) rfl oneT

/-- Counterexample for C9 as stated: the degenerate
`Block(1, 1, 0, 1, start_with_relu=False)` has an empty `rep`, so
`x += skip` adds the input buffer into itself: the caller's tensor entry
changes from 1 to 2. -/
theorem blockForward_input_mutated_cex :
    Block.init 1 1 0 1 false true z4 z1 z1 zeroRp = some blk0 ∧
    (Block.forwardAlias blk0 oneT).2.data 0 0 0 0 = 2 ∧
    oneT.data 0 0 0 0 = 1 := by
  refine ⟨rfl, ?_, rfl⟩
  show (1 : ℚ) + 1 = 2
  norm_num

theorem featuresSquare_forward (nc ic : Nat) (dr : ℚ) (P : Params) (N H : Nat)
    (f : Shape)
    (h : runStagesE (Xception.make nc ic dr P).featureStages [N, ic, H, H] = .ok f) :
    (∃ a, f = [N, 2048, a + 1, a + 1]) ∧
    (Xception.make nc ic dr P).forwardShape [N, ic, H, H] = .ok [N, nc] := by
  obtain ⟨c2, h2, rfl⟩ := runStagesE_sq (Xception.make nc ic dr P).featureStages
    N ic H f rfl h
  obtain ⟨n2, a, b, hf⟩ := features_c2048 nc ic dr P [N, ic, H, H] _ h
  have hfs := hf
  injection hfs with h1 hfs
  injection hfs with h2eq hfs
  injection hfs with h3 hfs
  subst h2eq
  subst h3
  constructor
  · exact ⟨a, rfl⟩
  · rw [Xception.forwardShape, Xception.allStages, runStagesE_append, h]
    simp only [Except.bind]
    simp only [runStagesE, stageShape, avgPoolShape]
    have hc : ¬(a + 1 = 0 ∨ a + 1 < a + 1 ∨ a + 1 < a + 1) := by omega
    rw [if_neg hc]
    simp only [Except.bind, Nat.sub_self, Nat.zero_div]
    by_cases hdr : 0 < (Xception.make nc ic dr P).drop_rate
    · rw [if_pos hdr]
      rfl
    · rw [if_neg hdr]
      rfl

set_option maxRecDepth 4000 in
theorem headStages_ok_iff (nc ic : Nat) (dr : ℚ) (P : Params) (n hh w : Nat) :
    runStagesE ((Xception.make nc ic dr P).allStages.drop 24) [n, 2048, hh, w] =
        .ok [n, nc] ↔ (hh ≤ w ∧ w < 2 * hh) := by
  have hdrop : (Xception.make nc ic dr P).allStages.drop 24 =
      Stage.avgpoolAdaptive ::
        ((if 0 < (Xception.make nc ic dr P).drop_rate then [Stage.dropoutS] else []) ++
          [Stage.viewS, Stage.linear (Xception.make nc ic dr P).fc]) := by
    rw [Xception.allStages]
    rfl
  have hfc : (Xception.make nc ic dr P).fc.in_features = 2048 := rfl
  have hfo : (Xception.make nc ic dr P).fc.out_features = nc := rfl
  rw [hdrop]
  simp only [runStagesE, stageShape, avgPoolShape]
  by_cases h0 : hh = 0
  · subst h0
    simp [Except.bind]
  · by_cases hw : w < hh
    · have hc : (hh = 0 ∨ hh < hh ∨ w < hh) := Or.inr (Or.inr hw)
      rw [if_pos hc]
      simp only [Except.bind]
      constructor
      · intro habs; exact Except.noConfusion habs
      · intro habs; omega
    · push_neg at hw
      have hc : ¬(hh = 0 ∨ hh < hh ∨ w < hh) := by omega
      rw [if_neg hc]
      simp only [Except.bind, Nat.sub_self, Nat.zero_div]
      have hpos : 0 < hh := Nat.pos_of_ne_zero h0
      by_cases hq : (w - hh) / hh = 0
      · have hwlt : w < 2 * hh := by
          have := (Nat.div_eq_zero_iff hpos).mp hq
          omega
        rw [hq]
        by_cases hdr : 0 < (Xception.make nc ic dr P).drop_rate
        · rw [if_pos hdr]
          simp only [List.cons_append, List.nil_append, runStagesE, stageShape,
            Except.bind, viewShape, linShape, List.prod_cons, List.prod_nil, hfc, hfo]
          rw [if_neg (by omega)]
          exact ⟨fun _ => ⟨hw, hwlt⟩, fun _ => rfl⟩
        · rw [if_neg hdr]
          simp only [List.cons_append, List.nil_append, runStagesE, stageShape,
            Except.bind, viewShape, linShape, List.prod_cons, List.prod_nil, hfc, hfo]
          rw [if_neg (by omega)]
          exact ⟨fun _ => ⟨hw, hwlt⟩, fun _ => rfl⟩
      · have h1 : ¬(w - hh < hh) := fun hlt => hq ((Nat.div_eq_zero_iff hpos).mpr hlt)
        have hne : ¬(w < 2 * hh) := by omega
        obtain ⟨q, hq1⟩ : ∃ q, (w - hh) / hh = q + 1 :=
          ⟨(w - hh) / hh - 1, (Nat.succ_pred_eq_of_ne_zero hq).symm⟩
        rw [hq1]
        constructor
        · intro hok
          exfalso
          by_cases hdr : 0 < (Xception.make nc ic dr P).drop_rate
          · rw [if_pos hdr] at hok
            simp only [List.cons_append, List.nil_append, runStagesE, stageShape,
              Except.bind, viewShape, linShape, List.prod_cons, List.prod_nil,
              hfc] at hok
            rw [if_pos (by omega)] at hok
            exact Except.noConfusion hok
          · rw [if_neg hdr] at hok
            simp only [List.cons_append, List.nil_append, runStagesE, stageShape,
              Except.bind, viewShape, linShape, List.prod_cons, List.prod_nil,
              hfc] at hok
            rw [if_pos (by omega)] at hok
            exact Except.noConfusion hok
        · intro habs
          exact absurd habs.2 hne

/-- Claim C10 (amended): on a square batch the feature extractor yields a
square feature map with 2048 channels and positive side, and the full
forward shape is `[N, num_classes]`; the pooling/flatten/`fc` head on a
possibly non-square `2048`-channel feature map of height `hh` and width
`w` is well-formed exactly when `hh <= w < 2*hh`. -/
theorem square_input_output_shape (nc ic : Nat) (dr : ℚ) (P : Params) :
    (∀ (N H : Nat) (f : Shape),
      runStagesE (Xception.make nc ic dr P).featureStages [N, ic, H, H] = .ok f →
      (∃ a, f = [N, 2048, a + 1, a + 1]) ∧
      (Xception.make nc ic dr P).forwardShape [N, ic, H, H] = .ok [N, nc]) ∧
    (∀ (n hh w : Nat),
      runStagesE ((Xception.make nc ic dr P).allStages.drop 24) [n, 2048, hh, w] =
        .ok [n, nc] ↔ (hh ≤ w ∧ w < 2 * hh)) :=
  ⟨fun N H f h => featuresSquare_forward nc ic dr P N H f h,
   fun n hh w => headStages_ok_iff nc ic dr P n hh w⟩

/-- Witness for C10 (amended): the default network on a square
`1 x 3 x 299 x 299` input gives a `10 x 10` feature map and output
`[1, 1000]`. -/
theorem square_input_output_shape_wit :
    (∃ a, ([1, 2048, 10, 10] : Shape) = [1, 2048, a + 1, a + 1]) ∧
    (Xception.make 1000 3 0 zeroP).forwardShape [1, 3, 299, 299] = .ok [1, 1000] :=
  (square_input_output_shape 1000 3 0 zeroP).1 1 299 [1, 2048, 10, 10] rfl

/-- Counterexample for C10 as stated: on a non-square
`1 x 3 x 299 x 331` input the feature map is the non-square
`10 x 11`, yet the pooling/flatten/`fc` step is well-formed and the
forward call returns `[1, 1000]`. -/
theorem nonsquare_feature_forward_ok_cex :
    runStagesE mkD.featureStages [1, 3, 299, 331] = .ok [1, 2048, 10, 11] ∧
    mkD.forwardShape [1, 3, 299, 331] = .ok [1, 1000] := ⟨rfl, rfl⟩
